import Mathlib

/-!
Shallow embedding of the transaction-summary core of `lambda/main.go`
(repository `stori-challenge`): the CSV record parser (`readCSV`), the
month lookup (`months`, `getMonth`), the aggregation fold
(`getSummaries`), and the report computation performed in `sendEmail`
(total balance, credit/debit averages, rounding to 2 decimals).

Embedding choices, stated once:
* Go `float64` amounts are embedded as exact rationals `ℚ`; the three
  report values go through `GoFloat`, which additionally carries the
  IEEE non-finite outcomes (`nan`, `posInf`, `negInf`) so that the
  division by a zero count in `sendEmail` is modelled faithfully.
* `strconv.Atoi` and `strconv.ParseFloat` are embedded on the plain
  decimal fragment (optional sign, digits, optional fractional part);
  exponents, hex floats and `Inf`/`NaN` literals are outside the
  fragment and map to a parse failure.  Neither embedding models Go's
  `ErrRange` over/underflow failure, and `parseFloat` yields the
  literal's exact rational value: the main model (`getSummaries`)
  idealizes float64 arithmetic as exact rational arithmetic.  A
  rounding-faithful variant (`roundF64`, `addF`, `getSummariesF`)
  keeps the binary64 round-to-nearest-even of `ParseFloat`'s result
  and of each `+=`, and is used where that rounding is decisive
  (order sensitivity of the running totals).
* The CSV layer is embedded at the tokenized-row level: an input is a
  `List (List String)` of already-decoded rows.  Go's `encoding/csv`
  reader sets `FieldsPerRecord` from the first record it reads (the
  header here), so `ReadAll` fails exactly when some later row has a
  field count different from the header's; syntax-level failures such
  as unbalanced quoting land in that same `ReadAll`-error branch.
-/

/-- Errors the embedded code can signal.  `eofErr` is the header-read
failure of `readCSV` on empty input; `atoiErr` and `parseFloatErr` are
the `strconv` failures surfaced by `getMonth` / `getSummaries`;
`indexPanic` models the Go runtime panic on out-of-range slice
indexing in `readCSV`'s row loop (reachable only when the header has
fewer than 3 fields). -/
inductive GoErr where
  | eofErr
  | atoiErr
  | parseFloatErr
  | indexPanic
deriving DecidableEq, Repr

instance {ε α : Type} [DecidableEq ε] [DecidableEq α] : DecidableEq (Except ε α) := fun a b =>
  match a, b with
  | .error x, .error y =>
    if h : x = y then .isTrue (congrArg Except.error h)
    else .isFalse (fun hc => h (Except.error.inj hc))
  | .error _, .ok _ => .isFalse (fun hc => Except.noConfusion hc)
  | .ok _, .error _ => .isFalse (fun hc => Except.noConfusion hc)
  | .ok x, .ok y =>
    if h : x = y then .isTrue (congrArg Except.ok h)
    else .isFalse (fun hc => h (Except.ok.inj hc))

/-- Numeric value of a list of decimal digit characters, most
significant first (helper for the `strconv` embeddings). -/
def digitsVal (l : List Char) : ℕ :=
  l.foldl (fun a c => 10 * a + (c.toNat - 48)) 0

/-- Parses a non-empty all-digit character list, the digit part shared
by `atoi` and `parseFloat`. -/
def parseDigits (l : List Char) : Option ℕ :=
  if l ≠ [] ∧ l.all Char.isDigit then some (digitsVal l) else none

/-- Embedding of Go `strconv.Atoi`: optional single sign followed by
one or more digits, whole string consumed. -/
def atoi (s : String) : Option ℤ :=
  match s.toList with
  | '+' :: rest => (parseDigits rest).map (Int.ofNat)
  | '-' :: rest => (parseDigits rest).map (fun n => -(n : ℤ))
  | l => (parseDigits l).map (Int.ofNat)

/-- Unsigned decimal literal: `digits`, `digits.digits`, `digits.` or
`.digits` (helper for the `parseFloat` embedding). -/
def parseDec (l : List Char) : Option ℚ :=
  let intPart := l.takeWhile Char.isDigit
  let rest := l.dropWhile Char.isDigit
  match rest with
  | [] => if intPart = [] then none else some (digitsVal intPart)
  | '.' :: frac =>
      if (intPart ≠ [] ∨ frac ≠ []) ∧ frac.all Char.isDigit then
        some ((digitsVal intPart : ℚ) + (digitsVal frac : ℚ) / (10 ^ frac.length))
      else none
  | _ => none

/-- Embedding of Go `strconv.ParseFloat` on the plain decimal
fragment: optional sign, then an unsigned decimal literal. -/
def parseFloat (s : String) : Option ℚ :=
  match s.toList with
  | '+' :: rest => parseDec rest
  | '-' :: rest => (parseDec rest).map Neg.neg
  | l => parseDec l

/-- Embedding of `strings.Split(s, "/")[0]`: the prefix of `s` before
the first slash (the whole string when there is none). -/
def beforeSlash (s : String) : String :=
  String.mk (s.toList.takeWhile (fun c => c ≠ '/'))

/-- The global `months` map of `main.go` as a function.  Go map lookup
returns the zero value `""` for a missing key, so every integer
outside 1–12 maps to the empty string. -/
def months (i : ℤ) : String :=
  if i = 1 then "January"
  else if i = 2 then "February"
  else if i = 3 then "March"
  else if i = 4 then "April"
  else if i = 5 then "May"
  else if i = 6 then "June"
  else if i = 7 then "July"
  else if i = 8 then "August"
  else if i = 9 then "September"
  else if i = 10 then "October"
  else if i = 11 then "November"
  else if i = 12 then "December"
  else ""

/-- Embedding of `getMonth`: split the date on `/`, `Atoi` the first
segment, look it up in `months`. -/
def getMonth (s : String) : Except GoErr String :=
  match atoi (beforeSlash s) with
  | none => .error .atoiErr
  | some i => .ok (months i)

/-- One parsed CSV row, struct `TransactionCSV` of `main.go`. -/
structure TransactionCSV where
  ID : String
  Date : String
  Transaction : String
deriving DecidableEq, Repr

/-- The accumulator struct `Summaries` of `main.go`.  The Go map
`MonthlyTransactions` is embedded as a total function `String → ℕ`
(Go map lookup of an absent key yields 0). -/
structure Summaries where
  CreditCount : ℕ
  CreditTotal : ℚ
  DebitCount : ℕ
  DebitTotal : ℚ
  MonthlyTransactions : String → ℕ

/-- The `Summaries{}` zero value the fold in `getSummaries` starts
from (nil map reads as 0 everywhere). -/
def initialSummaries : Summaries :=
  { CreditCount := 0, CreditTotal := 0, DebitCount := 0, DebitTotal := 0,
    MonthlyTransactions := fun _ => 0 }

/-- The body of the `for _, t := range ts` loop of `getSummaries`:
month lookup (aborting on its error), month tally increment, amount
parse (aborting on its error), then the two sign-classification `if`s. -/
def processRecord (sm : Summaries) (t : TransactionCSV) : Except GoErr Summaries :=
  match getMonth t.Date with
  | .error e => .error e
  | .ok month =>
    let sm1 : Summaries :=
      { sm with MonthlyTransactions :=
          fun m => if m = month then sm.MonthlyTransactions m + 1
                   else sm.MonthlyTransactions m }
    match parseFloat t.Transaction with
    | none => .error .parseFloatErr
    | some amt =>
      let sm2 : Summaries :=
        if 0 < amt then
          { sm1 with CreditCount := sm1.CreditCount + 1,
                     CreditTotal := sm1.CreditTotal + amt }
        else sm1
      let sm3 : Summaries :=
        if amt < 0 then
          { sm2 with DebitCount := sm2.DebitCount + 1,
                     DebitTotal := sm2.DebitTotal + amt }
        else sm2
      .ok sm3

/-- The loop of `getSummaries`, record by record; the first failing
record aborts the whole batch. -/
def getSummariesAux : Summaries → List TransactionCSV → Except GoErr Summaries
  | sm, [] => .ok sm
  | sm, t :: ts =>
    match processRecord sm t with
    | .error e => .error e
    | .ok sm' => getSummariesAux sm' ts

/-- Embedding of `getSummaries`: fold the records over the zero-value
accumulator. -/
def getSummaries (ts : List TransactionCSV) : Except GoErr Summaries :=
  getSummariesAux initialSummaries ts

/-- The body of `readCSV`'s row loop: build a `TransactionCSV` from
fields `r[0]`, `r[1]`, `r[2]`. -/
def recOfRow (r : List String) : TransactionCSV :=
  { ID := r.getD 0 "", Date := r.getD 1 "", Transaction := r.getD 2 "" }

/-- Embedding of `readCSV` over tokenized rows.  The first row is the
header consumed by `r.Read()` (its absence is the `io.EOF` error
branch).  `ReadAll` fails iff some remaining row's field count differs
from the header's; on that failure the Go code executes
`return []TransactionCSV{}, nil`, i.e. it swallows the error and
reports success with no records.  On `ReadAll` success the loop
indexes `r[0]`, `r[1]`, `r[2]`, which panics when the (uniform) field
count is below 3 and there is at least one data row. -/
def readCSV (rows : List (List String)) : Except GoErr (List TransactionCSV) :=
  match rows with
  | [] => .error .eofErr
  | header :: body =>
    if body.all (fun r => r.length = header.length) then
      if 3 ≤ header.length ∨ body = [] then
        .ok (body.map recOfRow)
      else
        .error .indexPanic
    else
      .ok []

/-- Finite rationals extended with the IEEE-754 non-finite outcomes a
Go `float64` can take in `sendEmail`'s arithmetic. -/
inductive GoFloat where
  | finite (q : ℚ)
  | nan
  | posInf
  | negInf
deriving DecidableEq, Repr

/-- IEEE-754 division of two finite values (the divisor here is
`float64(count)`, so a zero divisor is `+0`): `0/0` is NaN, `a/0` is
a sign-matching infinity, otherwise exact. -/
def fdiv (a b : ℚ) : GoFloat :=
  if b = 0 then
    (if a = 0 then .nan else if 0 < a then .posInf else .negInf)
  else .finite (a / b)

/-- Embedding of `math.Round`: nearest integer, rounding half away
from zero. -/
def goRound (q : ℚ) : ℚ :=
  if 0 ≤ q then (⌊q + 1 / 2⌋ : ℤ) else (⌈q - 1 / 2⌉ : ℤ)

/-- The `math.Round(x*100) / 100` pattern of `sendEmail`, lifted to
`GoFloat`: `math.Round` maps NaN to NaN and each infinity to itself,
and the scalings by 100 preserve non-finite values. -/
def roundTo2 : GoFloat → GoFloat
  | .finite q => .finite (goRound (q * 100) / 100)
  | x => x

/-- The presentation values `sendEmail` computes and feeds to its
template (the anonymous data struct at its call site). -/
structure Report where
  Total : GoFloat
  MonthlyTransactions : String → ℕ
  CreditAverage : GoFloat
  DebitAverage : GoFloat

/-- Embedding of the computation at the top of `sendEmail`:
`to := math.Round((s.CreditTotal+s.DebitTotal)*100) / 100`,
`ca := math.Round(s.CreditTotal/float64(s.CreditCount)*100) / 100`,
`da := math.Round(s.DebitTotal/float64(s.DebitCount)*100) / 100`. -/
def sendEmailReport (s : Summaries) : Report :=
  { Total := roundTo2 (.finite (s.CreditTotal + s.DebitTotal)),
    MonthlyTransactions := s.MonthlyTransactions,
    CreditAverage := roundTo2 (fdiv s.CreditTotal (s.CreditCount : ℚ)),
    DebitAverage := roundTo2 (fdiv s.DebitTotal (s.DebitCount : ℚ)) }

/-! Helper notions for reasoning about the fold in `getSummaries`.
These are proof-side derived functions, not part of the embedding. -/

/-- Month label a record contributes (meaningful when its date's first
segment parses). -/
def monthOf (t : TransactionCSV) : String :=
  months ((atoi (beforeSlash t.Date)).getD 0)

/-- Parsed amount of a record (meaningful when parsing succeeds). -/
def amtOf (t : TransactionCSV) : ℚ :=
  (parseFloat t.Transaction).getD 0

/-- A record the loop classifies as a credit. -/
def isCredit (t : TransactionCSV) : Bool := decide (0 < amtOf t)

/-- A record the loop classifies as a debit. -/
def isDebit (t : TransactionCSV) : Bool := decide (amtOf t < 0)

/-- A record both `strconv` conversions accept. -/
def validRec (t : TransactionCSV) : Prop :=
  (atoi (beforeSlash t.Date)).isSome = true ∧ (parseFloat t.Transaction).isSome = true

instance (t : TransactionCSV) : Decidable (validRec t) := by
  unfold validRec; infer_instance

/-- The summary after one loop iteration, as a pure function of the
record (defined for valid records). -/
def stepVal (sm : Summaries) (t : TransactionCSV) : Summaries :=
  { CreditCount := sm.CreditCount + (if isCredit t then 1 else 0),
    CreditTotal := sm.CreditTotal + (if isCredit t then amtOf t else 0),
    DebitCount := sm.DebitCount + (if isDebit t then 1 else 0),
    DebitTotal := sm.DebitTotal + (if isDebit t then amtOf t else 0),
    MonthlyTransactions := fun m =>
      if m = monthOf t then sm.MonthlyTransactions m + 1
      else sm.MonthlyTransactions m }

/-- Closed form of the whole fold over a list of valid records. -/
def accum (sm : Summaries) (ts : List TransactionCSV) : Summaries :=
  { CreditCount := sm.CreditCount + ts.countP isCredit,
    CreditTotal := sm.CreditTotal + ((ts.filter isCredit).map amtOf).sum,
    DebitCount := sm.DebitCount + ts.countP isDebit,
    DebitTotal := sm.DebitTotal + ((ts.filter isDebit).map amtOf).sum,
    MonthlyTransactions := fun m =>
      sm.MonthlyTransactions m + ts.countP (fun t => monthOf t == m) }

theorem Summaries.ext_fields {a b : Summaries}
    (h1 : a.CreditCount = b.CreditCount) (h2 : a.CreditTotal = b.CreditTotal)
    (h3 : a.DebitCount = b.DebitCount) (h4 : a.DebitTotal = b.DebitTotal)
    (h5 : ∀ m, a.MonthlyTransactions m = b.MonthlyTransactions m) : a = b := by
  cases a; cases b
  simp_all
  exact funext h5

theorem processRecord_ok_eq (sm : Summaries) (t : TransactionCSV) (i : ℤ) (a : ℚ)
    (hm : atoi (beforeSlash t.Date) = some i) (ha : parseFloat t.Transaction = some a) :
    processRecord sm t = .ok (stepVal sm t) := by
  have hmo : monthOf t = months i := by simp [monthOf, hm]
  have hao : amtOf t = a := by simp [amtOf, ha]
  simp only [processRecord, getMonth, hm, ha]
  refine congrArg Except.ok (Summaries.ext_fields ?_ ?_ ?_ ?_ ?_) <;>
    simp [stepVal, isCredit, isDebit, hao, hmo] <;> split_ifs <;> simp_all

theorem processRecord_ok_valid {sm sm' : Summaries} {t : TransactionCSV}
    (h : processRecord sm t = .ok sm') : validRec t := by
  unfold processRecord at h
  constructor
  · rcases hg : getMonth t.Date with e | mo
    · rw [hg] at h; cases h
    · unfold getMonth at hg
      rcases hA : atoi (beforeSlash t.Date) with _ | i
      · rw [hA] at hg; cases hg
      · simp [hA]
  · rcases hg : getMonth t.Date with e | mo
    · rw [hg] at h; cases h
    · rw [hg] at h
      rcases hP : parseFloat t.Transaction with _ | a
      · simp only [hP] at h; cases h
      · simp [hP]

theorem accum_nil (sm : Summaries) : accum sm [] = sm := by
  refine Summaries.ext_fields ?_ ?_ ?_ ?_ ?_ <;> simp [accum]

theorem accum_cons (sm : Summaries) (t : TransactionCSV) (ts : List TransactionCSV) :
    accum sm (t :: ts) = accum (stepVal sm t) ts := by
  refine Summaries.ext_fields ?_ ?_ ?_ ?_ ?_
  · simp only [accum, stepVal, List.countP_cons]
    split_ifs <;> omega
  · simp only [accum, stepVal, List.filter_cons]
    split_ifs <;> simp <;> ring
  · simp only [accum, stepVal, List.countP_cons]
    split_ifs <;> omega
  · simp only [accum, stepVal, List.filter_cons]
    split_ifs <;> simp <;> ring
  · intro m
    by_cases hmo : m = monthOf t
    · subst hmo
      simp only [accum, stepVal, List.countP_cons, beq_self_eq_true, if_pos, if_true]
      omega
    · have hb : (monthOf t == m) = false :=
        beq_eq_false_iff_ne.mpr (fun hc => hmo hc.symm)
      simp [accum, stepVal, List.countP_cons, hmo, hb]
      exact fun hc => hmo hc.symm

theorem getSummariesAux_ok (ts : List TransactionCSV) :
    ∀ sm : Summaries, (∀ t ∈ ts, validRec t) →
      getSummariesAux sm ts = .ok (accum sm ts) := by
  induction ts with
  | nil => intro sm _; simp [getSummariesAux, accum_nil]
  | cons t ts ih =>
    intro sm h
    obtain ⟨hm, ha⟩ := h t (List.mem_cons_self t ts)
    obtain ⟨i, hi⟩ := Option.isSome_iff_exists.mp hm
    obtain ⟨a, hA⟩ := Option.isSome_iff_exists.mp ha
    have hstep := processRecord_ok_eq sm t i a hi hA
    simp only [getSummariesAux, hstep]
    rw [ih (stepVal sm t) (fun u hu => h u (List.mem_cons_of_mem t hu)), accum_cons]

theorem getSummariesAux_ok_valid {ts : List TransactionCSV} :
    ∀ {sm s : Summaries}, getSummariesAux sm ts = .ok s → ∀ t ∈ ts, validRec t := by
  induction ts with
  | nil => intro sm s _ t ht; cases ht
  | cons u ts ih =>
    intro sm s h t ht
    rw [getSummariesAux] at h
    rcases hp : processRecord sm u with e | sm'
    · rw [hp] at h; cases h
    · rw [hp] at h
      rcases List.mem_cons.mp ht with rfl | ht'
      · exact processRecord_ok_valid hp
      · exact ih h t ht'

theorem countP_credit_add_debit_le (ts : List TransactionCSV) :
    ts.countP isCredit + ts.countP isDebit ≤ ts.length := by
  induction ts with
  | nil => simp
  | cons t ts ih =>
    cases hc : isCredit t with
    | false =>
      cases hd : isDebit t with
      | false => simp [List.countP_cons, hc, hd]; omega
      | true => simp [List.countP_cons, hc, hd]; omega
    | true =>
      have h0 : 0 < amtOf t := by simpa [isCredit] using hc
      have hd : isDebit t = false := by simp [isDebit]; linarith
      simp [List.countP_cons, hc, hd]; omega

theorem countP_credit_add_debit_eq (ts : List TransactionCSV)
    (h : ∀ t ∈ ts, amtOf t ≠ 0) :
    ts.countP isCredit + ts.countP isDebit = ts.length := by
  induction ts with
  | nil => simp
  | cons t ts ih =>
    have ht := h t (List.mem_cons_self t ts)
    have hrest := ih (fun u hu => h u (List.mem_cons_of_mem t hu))
    rcases lt_trichotomy (amtOf t) 0 with hlt | heq | hgt
    · have hc : isCredit t = false := by simp [isCredit]; linarith
      have hd : isDebit t = true := by simpa [isDebit] using hlt
      simp [List.countP_cons, hc, hd]; omega
    · exact absurd heq ht
    · have hc : isCredit t = true := by simpa [isCredit] using hgt
      have hd : isDebit t = false := by simp [isDebit]; linarith
      simp [List.countP_cons, hc, hd]; omega

/-- Computation rule for `goRound` on nonnegative arguments, with the
floor discharged through explicit bounds. -/
theorem goRound_nonneg_eq (q : ℚ) (n : ℤ) (h0 : 0 ≤ q) (h1 : (n : ℚ) ≤ q + 1 / 2)
    (h2 : q + 1 / 2 < (n : ℚ) + 1) : goRound q = (n : ℚ) := by
  rw [goRound, if_pos h0]
  have hf : ⌊q + 1 / 2⌋ = n := Int.floor_eq_iff.mpr ⟨h1, by exact_mod_cast h2⟩
  rw [hf]

/-- Computation rule for `goRound` on negative arguments, with the
ceiling discharged through explicit bounds. -/
theorem goRound_neg_eq (q : ℚ) (n : ℤ) (h0 : ¬0 ≤ q) (h1 : (n : ℚ) - 1 < q - 1 / 2)
    (h2 : q - 1 / 2 ≤ (n : ℚ)) : goRound q = (n : ℚ) := by
  rw [goRound, if_neg h0]
  have hc : ⌈q - 1 / 2⌉ = n := Int.ceil_eq_iff.mpr ⟨by exact_mod_cast h1, h2⟩
  rw [hc]

/-- The four-row batch of Scenario A. -/
def scenarioA : List TransactionCSV :=
  [{ ID := "0", Date := "7/15", Transaction := "+60.50" },
   { ID := "1", Date := "7/28", Transaction := "-10.30" },
   { ID := "2", Date := "8/2", Transaction := "-20.46" },
   { ID := "3", Date := "8/13", Transaction := "+10.00" }]

/-- Closed form of the summary `getSummaries` computes for Scenario A
(tied to the code by `getSummaries_scenarioA`). -/
def scenarioASummary : Summaries :=
  accum initialSummaries scenarioA

/-- A one-record batch whose only record is a debit. -/
def allDebits : List TransactionCSV :=
  [{ ID := "0", Date := "7/15", Transaction := "-10.30" }]

/-- Closed form of the summary `getSummaries` computes for the
all-debits batch (tied to the code by `getSummaries_allDebits`). -/
def allDebitsSummary : Summaries :=
  accum initialSummaries allDebits

/-! Concrete evaluation lemmas for the records of the two sample
batches.  Kernel reduction stops at `Rat` normalization, so the
rational values are established by `norm_num` from the unreduced
parse results. -/

theorem parseFloat_6050 : parseFloat "+60.50" = some (121 / 2) := by
  have h : parseFloat "+60.50" = some (((60 : ℕ) : ℚ) + ((50 : ℕ) : ℚ) / 10 ^ 2) := rfl
  rw [h]; norm_num

theorem parseFloat_1030 : parseFloat "-10.30" = some (-(103 / 10)) := by
  have h : parseFloat "-10.30" = some (-(((10 : ℕ) : ℚ) + ((30 : ℕ) : ℚ) / 10 ^ 2)) := rfl
  rw [h]; norm_num

theorem parseFloat_2046 : parseFloat "-20.46" = some (-(1023 / 50)) := by
  have h : parseFloat "-20.46" = some (-(((20 : ℕ) : ℚ) + ((46 : ℕ) : ℚ) / 10 ^ 2)) := rfl
  rw [h]; norm_num

theorem parseFloat_1000 : parseFloat "+10.00" = some 10 := by
  have h : parseFloat "+10.00" = some (((10 : ℕ) : ℚ) + ((0 : ℕ) : ℚ) / 10 ^ 2) := rfl
  rw [h]; norm_num

theorem amtOf_r1 : amtOf { ID := "0", Date := "7/15", Transaction := "+60.50" } = 121 / 2 := by
  simp [amtOf, parseFloat_6050]

theorem amtOf_r2 : amtOf { ID := "1", Date := "7/28", Transaction := "-10.30" } = -(103 / 10) := by
  simp [amtOf, parseFloat_1030]

theorem amtOf_r3 : amtOf { ID := "2", Date := "8/2", Transaction := "-20.46" } = -(1023 / 50) := by
  simp [amtOf, parseFloat_2046]

theorem amtOf_r4 : amtOf { ID := "3", Date := "8/13", Transaction := "+10.00" } = 10 := by
  simp [amtOf, parseFloat_1000]

theorem amtOf_d1 : amtOf { ID := "0", Date := "7/15", Transaction := "-10.30" } = -(103 / 10) := by
  simp [amtOf, parseFloat_1030]

theorem isCredit_r1 : isCredit { ID := "0", Date := "7/15", Transaction := "+60.50" } = true := by
  unfold isCredit; rw [amtOf_r1]; simp only [decide_eq_true_eq]; norm_num

theorem isCredit_r2 : isCredit { ID := "1", Date := "7/28", Transaction := "-10.30" } = false := by
  unfold isCredit; rw [amtOf_r2]; simp only [decide_eq_false_iff_not]; norm_num

theorem isCredit_r3 : isCredit { ID := "2", Date := "8/2", Transaction := "-20.46" } = false := by
  unfold isCredit; rw [amtOf_r3]; simp only [decide_eq_false_iff_not]; norm_num

theorem isCredit_r4 : isCredit { ID := "3", Date := "8/13", Transaction := "+10.00" } = true := by
  unfold isCredit; rw [amtOf_r4]; simp only [decide_eq_true_eq]; norm_num

theorem isDebit_r1 : isDebit { ID := "0", Date := "7/15", Transaction := "+60.50" } = false := by
  unfold isDebit; rw [amtOf_r1]; simp only [decide_eq_false_iff_not]; norm_num

theorem isDebit_r2 : isDebit { ID := "1", Date := "7/28", Transaction := "-10.30" } = true := by
  unfold isDebit; rw [amtOf_r2]; simp only [decide_eq_true_eq]; norm_num

theorem isDebit_r3 : isDebit { ID := "2", Date := "8/2", Transaction := "-20.46" } = true := by
  unfold isDebit; rw [amtOf_r3]; simp only [decide_eq_true_eq]; norm_num

theorem isDebit_r4 : isDebit { ID := "3", Date := "8/13", Transaction := "+10.00" } = false := by
  unfold isDebit; rw [amtOf_r4]; simp only [decide_eq_false_iff_not]; norm_num

theorem isCredit_d1 : isCredit { ID := "0", Date := "7/15", Transaction := "-10.30" } = false := by
  unfold isCredit; rw [amtOf_d1]; simp only [decide_eq_false_iff_not]; norm_num

theorem isDebit_d1 : isDebit { ID := "0", Date := "7/15", Transaction := "-10.30" } = true := by
  unfold isDebit; rw [amtOf_d1]; simp only [decide_eq_true_eq]; norm_num

theorem monthOf_r1 : monthOf { ID := "0", Date := "7/15", Transaction := "+60.50" } = "July" := by
  decide

theorem monthOf_r2 : monthOf { ID := "1", Date := "7/28", Transaction := "-10.30" } = "July" := by
  decide

theorem monthOf_r3 : monthOf { ID := "2", Date := "8/2", Transaction := "-20.46" } = "August" := by
  decide

theorem monthOf_r4 : monthOf { ID := "3", Date := "8/13", Transaction := "+10.00" } = "August" := by
  decide

theorem scenarioA_valid : ∀ t ∈ scenarioA, validRec t := by decide

theorem allDebits_valid : ∀ t ∈ allDebits, validRec t := by decide

theorem getSummaries_scenarioA : getSummaries scenarioA = .ok scenarioASummary :=
  getSummariesAux_ok scenarioA initialSummaries scenarioA_valid

theorem getSummaries_allDebits : getSummaries allDebits = .ok allDebitsSummary :=
  getSummariesAux_ok allDebits initialSummaries allDebits_valid

theorem allDebitsSummary_creditCount : allDebitsSummary.CreditCount = 0 := by
  simp [allDebitsSummary, accum, initialSummaries, allDebits, List.countP_cons, isCredit_d1]

theorem allDebitsSummary_creditTotal : allDebitsSummary.CreditTotal = 0 := by
  simp [allDebitsSummary, accum, initialSummaries, allDebits, List.filter_cons, isCredit_d1]

/-- C1: For the four-row Scenario A batch, aggregation succeeds and
produces creditCount=2, creditTotal=70.50, debitCount=2,
debitTotal=-30.76 with two July and two August records (and no record
under any other month label), and the derived report values are
totalBalance=39.74, creditAverage=35.25, debitAverage=-15.38. -/
theorem scenarioA_summary_and_report :
    getSummaries scenarioA = .ok scenarioASummary ∧
    scenarioASummary.CreditCount = 2 ∧
    scenarioASummary.CreditTotal = 70.50 ∧
    scenarioASummary.DebitCount = 2 ∧
    scenarioASummary.DebitTotal = -30.76 ∧
    scenarioASummary.MonthlyTransactions "July" = 2 ∧
    scenarioASummary.MonthlyTransactions "August" = 2 ∧
    (∀ m : String, m ≠ "July" → m ≠ "August" →
      scenarioASummary.MonthlyTransactions m = 0) ∧
    (sendEmailReport scenarioASummary).Total = .finite 39.74 ∧
    (sendEmailReport scenarioASummary).CreditAverage = .finite 35.25 ∧
    (sendEmailReport scenarioASummary).DebitAverage = .finite (-15.38) := by
  have hcc : scenarioASummary.CreditCount = 2 := by
    simp [scenarioASummary, accum, initialSummaries, scenarioA, List.countP_cons,
      isCredit_r1, isCredit_r2, isCredit_r3, isCredit_r4]
  have hct : scenarioASummary.CreditTotal = 141 / 2 := by
    simp only [scenarioASummary, accum, initialSummaries, scenarioA, List.filter_cons,
      isCredit_r1, isCredit_r2, isCredit_r3, isCredit_r4, if_true, if_false,
      List.map_cons, List.map_nil, List.sum_cons, List.sum_nil, amtOf_r1, amtOf_r4]
    norm_num [amtOf_r1, amtOf_r4]
  have hdc : scenarioASummary.DebitCount = 2 := by
    simp [scenarioASummary, accum, initialSummaries, scenarioA, List.countP_cons,
      isDebit_r1, isDebit_r2, isDebit_r3, isDebit_r4]
  have hdt : scenarioASummary.DebitTotal = -(769 / 25) := by
    simp only [scenarioASummary, accum, initialSummaries, scenarioA, List.filter_cons,
      isDebit_r1, isDebit_r2, isDebit_r3, isDebit_r4, if_true, if_false,
      List.map_cons, List.map_nil, List.sum_cons, List.sum_nil, amtOf_r2, amtOf_r3]
    norm_num [amtOf_r2, amtOf_r3]
  refine ⟨getSummaries_scenarioA, hcc, by rw [hct]; norm_num, hdc, by rw [hdt]; norm_num,
    ?_, ?_, ?_, ?_, ?_, ?_⟩
  · simp [scenarioASummary, accum, initialSummaries, scenarioA, List.countP_cons,
      monthOf_r1, monthOf_r2, monthOf_r3, monthOf_r4]
  · simp [scenarioASummary, accum, initialSummaries, scenarioA, List.countP_cons,
      monthOf_r1, monthOf_r2, monthOf_r3, monthOf_r4]
  · intro m h1 h2
    have b1 : (("July" : String) == m) = false := beq_eq_false_iff_ne.mpr (Ne.symm h1)
    have b2 : (("August" : String) == m) = false := beq_eq_false_iff_ne.mpr (Ne.symm h2)
    simp [scenarioASummary, accum, initialSummaries, scenarioA, List.countP_cons,
      monthOf_r1, monthOf_r2, monthOf_r3, monthOf_r4, b1, b2]
    exact ⟨fun hc => h2 hc.symm, fun hc => h1 hc.symm⟩
  · show roundTo2 (.finite (scenarioASummary.CreditTotal + scenarioASummary.DebitTotal)) = _
    rw [hct, hdt]
    have hs : ((141 : ℚ) / 2 + -(769 / 25)) * 100 = 3974 := by norm_num
    simp only [roundTo2]
    rw [hs, goRound_nonneg_eq 3974 3974 (by norm_num) (by norm_num) (by norm_num)]
    norm_num
  · show roundTo2 (fdiv scenarioASummary.CreditTotal (scenarioASummary.CreditCount : ℚ)) = _
    rw [hct, hcc]
    have hb : ((2 : ℕ) : ℚ) ≠ 0 := by norm_num
    simp only [fdiv, if_neg hb, roundTo2]
    have hs : ((141 : ℚ) / 2) / ((2 : ℕ) : ℚ) * 100 = 3525 := by norm_num
    rw [hs, goRound_nonneg_eq 3525 3525 (by norm_num) (by norm_num) (by norm_num)]
    norm_num
  · show roundTo2 (fdiv scenarioASummary.DebitTotal (scenarioASummary.DebitCount : ℚ)) = _
    rw [hdt, hdc]
    have hb : ((2 : ℕ) : ℚ) ≠ 0 := by norm_num
    simp only [fdiv, if_neg hb, roundTo2]
    have hs : (-((769 : ℚ) / 25)) / ((2 : ℕ) : ℚ) * 100 = -1538 := by norm_num
    rw [hs, goRound_neg_eq (-1538) (-1538) (by norm_num) (by norm_num) (by norm_num)]
    norm_num

/-- C1 witness: no Scenario A record is tallied under the month label
`"March"`. -/
theorem scenarioA_summary_and_report_witness :
    scenarioASummary.MonthlyTransactions "March" = 0 :=
  scenarioA_summary_and_report.2.2.2.2.2.2.2.1 "March" (by decide) (by decide)

/-- C2: On a batch whose data row has only 2 fields, `readCSV` does
NOT fail: the `ReadAll` error is swallowed
(`return []TransactionCSV{}, nil` in `main.go`) and the function
reports success with an empty record list.  This evaluates the code at
the failing input of the claim. -/
theorem readCSV_swallows_malformed_row :
    readCSV [["Id", "Date", "Transaction"], ["0", "7/15"]] = .ok [] := by
  decide

/-- C3 counterexample: with date token `13/5` (month 13), aggregation
does not fail with any error; it succeeds and tallies the record under
the empty-string month label. -/
theorem month13_no_error :
    (getSummaries [{ ID := "0", Date := "13/5", Transaction := "10" }]).map
      (fun s => s.MonthlyTransactions "") = .ok 1 := by
  decide

/-- C3 amended: for a record whose date's first `/`-separated segment
parses as an integer outside 1–12, `getMonth` succeeds with the empty
string (Go's zero value for a missing map key) and the aggregation
step succeeds, incrementing the empty-string month label's count. -/
theorem out_of_range_month_silent (t : TransactionCSV) (i : ℤ) (a : ℚ) (sm : Summaries)
    (hm : atoi (beforeSlash t.Date) = some i) (hr : i < 1 ∨ 12 < i)
    (ha : parseFloat t.Transaction = some a) :
    getMonth t.Date = .ok "" ∧
    ∃ sm', processRecord sm t = .ok sm' ∧
      sm'.MonthlyTransactions "" = sm.MonthlyTransactions "" + 1 := by
  have hmonths : months i = "" := by
    have n1 : i ≠ 1 := by omega
    have n2 : i ≠ 2 := by omega
    have n3 : i ≠ 3 := by omega
    have n4 : i ≠ 4 := by omega
    have n5 : i ≠ 5 := by omega
    have n6 : i ≠ 6 := by omega
    have n7 : i ≠ 7 := by omega
    have n8 : i ≠ 8 := by omega
    have n9 : i ≠ 9 := by omega
    have n10 : i ≠ 10 := by omega
    have n11 : i ≠ 11 := by omega
    have n12 : i ≠ 12 := by omega
    rw [months, if_neg n1, if_neg n2, if_neg n3, if_neg n4, if_neg n5, if_neg n6,
      if_neg n7, if_neg n8, if_neg n9, if_neg n10, if_neg n11, if_neg n12]
  constructor
  · simp only [getMonth, hm, hmonths]
  · refine ⟨stepVal sm t, processRecord_ok_eq sm t i a hm ha, ?_⟩
    have hmo : monthOf t = "" := by
      simp only [monthOf, hm, Option.getD_some, hmonths]
    simp only [stepVal, hmo, eq_self_iff_true, if_true]

/-- C3 amended witness: the record `(0, 13/5, 10)` at the zero-value
accumulator. -/
theorem out_of_range_month_silent_witness :
    getMonth ("13/5" : String) = .ok "" ∧
    ∃ sm', processRecord initialSummaries { ID := "0", Date := "13/5", Transaction := "10" } =
        .ok sm' ∧
      sm'.MonthlyTransactions "" = initialSummaries.MonthlyTransactions "" + 1 :=
  out_of_range_month_silent { ID := "0", Date := "13/5", Transaction := "10" } 13 10
    initialSummaries (by decide) (by decide) (by decide)

/-- C4 counterexample: on a batch whose only record is a debit
(creditCount = 0), the credit-average computation of `sendEmail` is an
unchecked division `0/0` and yields NaN inside a successful result —
neither a chosen sentinel policy nor a failure. -/
theorem creditAverage_unchecked_nan :
    (getSummaries allDebits).map
      (fun s => (s.CreditCount, (sendEmailReport s).CreditAverage)) =
      .ok (0, GoFloat.nan) := by
  rw [getSummaries_allDebits]
  simp only [Except.map]
  refine congrArg Except.ok ?_
  have hca : (sendEmailReport allDebitsSummary).CreditAverage = GoFloat.nan := by
    show roundTo2 (fdiv allDebitsSummary.CreditTotal (allDebitsSummary.CreditCount : ℚ)) = _
    rw [allDebitsSummary_creditTotal, allDebitsSummary_creditCount]
    simp [fdiv, roundTo2]
  rw [allDebitsSummary_creditCount, hca]

/-- C4 amended: for every successfully aggregated batch, if
creditCount = 0 then creditTotal is also 0 and the credit average is
the unchecked division 0/0 = NaN, silently embedded in the report;
likewise for the debit average when debitCount = 0. -/
theorem zero_count_average_is_nan (ts : List TransactionCSV) (s : Summaries)
    (h : getSummaries ts = .ok s) :
    (s.CreditCount = 0 → (sendEmailReport s).CreditAverage = GoFloat.nan) ∧
    (s.DebitCount = 0 → (sendEmailReport s).DebitAverage = GoFloat.nan) := by
  have hv : ∀ t ∈ ts, validRec t := getSummariesAux_ok_valid h
  have hok := getSummariesAux_ok ts initialSummaries hv
  rw [getSummaries] at h
  rw [h] at hok
  have hs : s = accum initialSummaries ts := Except.ok.inj hok
  subst hs
  constructor
  · intro hc
    have hcnt : ts.countP isCredit = 0 := by
      simpa [accum, initialSummaries] using hc
    have hf : ts.filter isCredit = [] :=
      List.filter_eq_nil_iff.mpr (by
        intro t ht hcr
        have := List.countP_eq_zero.mp hcnt t ht
        exact this hcr)
    simp [sendEmailReport, accum, initialSummaries, hcnt, hf, fdiv, roundTo2]
  · intro hd
    have hcnt : ts.countP isDebit = 0 := by
      simpa [accum, initialSummaries] using hd
    have hf : ts.filter isDebit = [] :=
      List.filter_eq_nil_iff.mpr (by
        intro t ht hdb
        have := List.countP_eq_zero.mp hcnt t ht
        exact this hdb)
    simp [sendEmailReport, accum, initialSummaries, hcnt, hf, fdiv, roundTo2]

/-- C4 amended witness: the all-debits batch. -/
theorem zero_count_average_is_nan_witness :
    (sendEmailReport allDebitsSummary).CreditAverage = GoFloat.nan :=
  (zero_count_average_is_nan allDebits allDebitsSummary getSummaries_allDebits).1
    allDebitsSummary_creditCount

/-- Round-half-away-from-zero as the spec words it: round the
absolute value half-up, then restore the sign. -/
def specRoundHalfAwayFromZero (q : ℚ) : ℤ :=
  if 0 ≤ q then ⌊q + 1 / 2⌋ else -⌊-q + 1 / 2⌋

/-- C5: the three report values are each independently obtained by the
`math.Round(x*100)/100` pattern, whose integer rounding agrees with
round-half-away-from-zero; in particular rounding 2.345 to 2 decimal
places gives 2.35. -/
theorem rounding_policy_half_away_from_zero :
    (∀ q : ℚ, goRound q = ((specRoundHalfAwayFromZero q : ℤ) : ℚ)) ∧
    roundTo2 (.finite (2345 / 1000)) = .finite (235 / 100) ∧
    ∀ s : Summaries,
      (sendEmailReport s).Total = roundTo2 (.finite (s.CreditTotal + s.DebitTotal)) ∧
      (sendEmailReport s).CreditAverage =
        roundTo2 (fdiv s.CreditTotal (s.CreditCount : ℚ)) ∧
      (sendEmailReport s).DebitAverage =
        roundTo2 (fdiv s.DebitTotal (s.DebitCount : ℚ)) := by
  refine ⟨?_, ?_, fun s => ⟨rfl, rfl, rfl⟩⟩
  · intro q
    unfold goRound specRoundHalfAwayFromZero
    split_ifs with h
    · rfl
    · have hne : ⌈q - 1 / 2⌉ = -⌊-q + 1 / 2⌋ := by
        rw [show -q + 1 / 2 = -(q - 1 / 2) by ring, Int.floor_neg, neg_neg]
      rw [hne]
  · simp only [roundTo2]
    have hs : (2345 : ℚ) / 1000 * 100 = 469 / 2 := by norm_num
    rw [hs, goRound_nonneg_eq (469 / 2) 235 (by norm_num) (by norm_num) (by norm_num)]
    norm_num

/-- C6: one aggregation step on a record with amount 0 increments
neither credit nor debit tallies but still increments the record's
month count; a positive amount increments creditCount/creditTotal
only, a negative amount increments debitCount/debitTotal only (all
three cases also bump the month count). -/
theorem processRecord_classification (sm : Summaries) (t : TransactionCSV)
    (mo : String) (a : ℚ)
    (hm : getMonth t.Date = .ok mo) (ha : parseFloat t.Transaction = some a) :
    (a = 0 → processRecord sm t = .ok
      { sm with MonthlyTransactions := fun m =>
          if m = mo then sm.MonthlyTransactions m + 1 else sm.MonthlyTransactions m }) ∧
    (0 < a → processRecord sm t = .ok
      { sm with CreditCount := sm.CreditCount + 1, CreditTotal := sm.CreditTotal + a,
                MonthlyTransactions := fun m =>
          if m = mo then sm.MonthlyTransactions m + 1 else sm.MonthlyTransactions m }) ∧
    (a < 0 → processRecord sm t = .ok
      { sm with DebitCount := sm.DebitCount + 1, DebitTotal := sm.DebitTotal + a,
                MonthlyTransactions := fun m =>
          if m = mo then sm.MonthlyTransactions m + 1 else sm.MonthlyTransactions m }) := by
  rcases hA : atoi (beforeSlash t.Date) with _ | i
  · simp only [getMonth, hA] at hm
    exact Except.noConfusion hm
  · simp only [getMonth, hA, Except.ok.injEq] at hm
    have hstep := processRecord_ok_eq sm t i a hA ha
    have hmonth : monthOf t = mo := by simp [monthOf, hA, hm]
    have hamt : amtOf t = a := by simp [amtOf, ha]
    refine ⟨fun h0 => ?_, fun hpos => ?_, fun hneg => ?_⟩
    · have hc : isCredit t = false := by
        unfold isCredit; rw [hamt, h0]; simp
      have hd : isDebit t = false := by
        unfold isDebit; rw [hamt, h0]; simp
      rw [hstep]
      refine congrArg Except.ok (Summaries.ext_fields ?_ ?_ ?_ ?_ ?_) <;>
        simp [stepVal, hc, hd, hmonth]
    · have hc : isCredit t = true := by
        unfold isCredit; rw [hamt]; simp [hpos]
      have hd : isDebit t = false := by
        unfold isDebit; rw [hamt]; simp only [decide_eq_false_iff_not]; linarith
      rw [hstep]
      refine congrArg Except.ok (Summaries.ext_fields ?_ ?_ ?_ ?_ ?_) <;>
        simp [stepVal, hc, hd, hmonth, hamt]
    · have hc : isCredit t = false := by
        unfold isCredit; rw [hamt]; simp only [decide_eq_false_iff_not]; linarith
      have hd : isDebit t = true := by
        unfold isDebit; rw [hamt]; simp [hneg]
      rw [hstep]
      refine congrArg Except.ok (Summaries.ext_fields ?_ ?_ ?_ ?_ ?_) <;>
        simp [stepVal, hc, hd, hmonth, hamt]

/-- C6 witness: a zero-amount July record over the zero-value
accumulator leaves all tallies unchanged except the July count. -/
theorem processRecord_classification_witness :
    processRecord initialSummaries { ID := "4", Date := "7/15", Transaction := "0" } =
      .ok { initialSummaries with MonthlyTransactions := fun m =>
        if m = "July" then initialSummaries.MonthlyTransactions m + 1
        else initialSummaries.MonthlyTransactions m } :=
  (processRecord_classification initialSummaries
    { ID := "4", Date := "7/15", Transaction := "0" } "July" 0
    (by decide) (by decide)).1 rfl

/-- C7: every successfully aggregated batch satisfies
creditCount + debitCount ≤ number of records, with equality whenever
no record's amount parses to 0. -/
theorem getSummaries_count_invariant (ts : List TransactionCSV) (s : Summaries)
    (h : getSummaries ts = .ok s) :
    s.CreditCount + s.DebitCount ≤ ts.length ∧
    ((∀ t ∈ ts, parseFloat t.Transaction ≠ some 0) →
      s.CreditCount + s.DebitCount = ts.length) := by
  have hv : ∀ t ∈ ts, validRec t := getSummariesAux_ok_valid h
  have hok := getSummariesAux_ok ts initialSummaries hv
  rw [getSummaries] at h
  rw [h] at hok
  have hs : s = accum initialSummaries ts := Except.ok.inj hok
  subst hs
  constructor
  · have hle := countP_credit_add_debit_le ts
    simp only [accum, initialSummaries, Nat.zero_add]
    omega
  · intro hz
    have ha : ∀ t ∈ ts, amtOf t ≠ 0 := by
      intro t ht
      obtain ⟨a, hA⟩ := Option.isSome_iff_exists.mp (hv t ht).2
      have hne : a ≠ 0 := fun hc => hz t ht (by rw [hA, hc])
      simp [amtOf, hA, hne]
    have heq := countP_credit_add_debit_eq ts ha
    simp only [accum, initialSummaries, Nat.zero_add]
    omega

/-- C7 witness: Scenario A has 4 records, none with amount 0, and its
summary satisfies the bound with equality. -/
theorem getSummaries_count_invariant_witness :
    scenarioASummary.CreditCount + scenarioASummary.DebitCount ≤ scenarioA.length ∧
    scenarioASummary.CreditCount + scenarioASummary.DebitCount = scenarioA.length := by
  have h := getSummaries_count_invariant scenarioA scenarioASummary getSummaries_scenarioA
  refine ⟨h.1, h.2 ?_⟩
  intro t ht hc
  simp only [scenarioA, List.mem_cons, List.not_mem_nil, or_false] at ht
  rcases ht with rfl | rfl | rfl | rfl
  · rw [parseFloat_6050] at hc
    exact absurd (Option.some.inj hc) (by norm_num)
  · rw [parseFloat_1030] at hc
    exact absurd (Option.some.inj hc) (by norm_num)
  · rw [parseFloat_2046] at hc
    exact absurd (Option.some.inj hc) (by norm_num)
  · rw [parseFloat_1000] at hc
    exact absurd (Option.some.inj hc) (by norm_num)

/-- C8: on a header of 3 fields followed by n data rows of exactly 3
fields each, `readCSV` succeeds with exactly the n records built from
the data rows, the header discarded, in input order. -/
theorem readCSV_header_and_order (header : List String) (body : List (List String))
    (h1 : header.length = 3) (h2 : ∀ r ∈ body, r.length = 3) :
    readCSV (header :: body) = .ok (body.map recOfRow) ∧
    (body.map recOfRow).length = body.length ∧
    ∀ i (hi : i < body.length),
      (body.map recOfRow).get ⟨i, by simpa using hi⟩ = recOfRow (body.get ⟨i, hi⟩) := by
  refine ⟨?_, by simp, ?_⟩
  · have hall : (body.all fun r => r.length = header.length) = true := by
      simp only [List.all_eq_true, decide_eq_true_eq]
      intro r hr
      rw [h2 r hr, h1]
    simp only [readCSV]
    rw [if_pos hall, if_pos (Or.inl (by omega))]
  · intro i hi
    simp

/-- C8 witness: a header plus two well-formed data rows. -/
theorem readCSV_header_and_order_witness :
    readCSV [["Id", "Date", "Transaction"], ["0", "7/15", "+60.50"],
        ["1", "7/28", "-10.30"]] =
      .ok ([["0", "7/15", "+60.50"], ["1", "7/28", "-10.30"]].map recOfRow) :=
  (readCSV_header_and_order ["Id", "Date", "Transaction"]
    [["0", "7/15", "+60.50"], ["1", "7/28", "-10.30"]] (by decide) (by decide)).1

/-! The rounding-faithful float64 model, used for the order-dependence
analysis of the running totals.  Go's `amt, err := strconv.ParseFloat`
yields the binary64 value nearest the decimal literal, and each
`sm.CreditTotal += fl` / `sm.DebitTotal += fl` is an IEEE-754 binary64
addition: the exact sum rounded to 53 significant bits, nearest, ties
to even.  `roundF64` is that rounding on the IEEE normal range
(subnormal underflow and overflow to infinity, many orders of
magnitude away from this repository's data, are not modelled). -/

/-- Powers of two as rationals. -/
def pow2 (k : ℤ) : ℚ := (2 : ℚ) ^ k

/-- Round a rational to the nearest integer, ties to even (the IEEE
default rounding direction). -/
def roundNearestEven (y : ℚ) : ℤ :=
  let f := ⌊y⌋
  if y - f < 1 / 2 then f
  else if 1 / 2 < y - f then f + 1
  else if f % 2 = 0 then f else f + 1

/-- Floor of log2 of a positive rational, from the bit lengths of
numerator and denominator with a one-step correction
(`floorLog2Rat_eq` proves it correct). -/
def floorLog2Rat (x : ℚ) : ℤ :=
  let e0 : ℤ := (Nat.log2 x.num.toNat : ℤ) - (Nat.log2 x.den : ℤ)
  if pow2 e0 ≤ x then e0 else e0 - 1

/-- Round a positive rational to the nearest binary64 value: scale the
value into a 53-bit significand for its binade and round, ties to
even. -/
def roundF64Pos (x : ℚ) : ℚ :=
  let e := floorLog2Rat x
  ((roundNearestEven (x * pow2 (52 - e)) : ℤ) : ℚ) * pow2 (e - 52)

/-- Round a rational to the nearest binary64 value (normal range). -/
def roundF64 (x : ℚ) : ℚ :=
  if x = 0 then 0
  else if x < 0 then -roundF64Pos (-x)
  else roundF64Pos x

/-- IEEE-754 binary64 addition of two finite values, Go's `float64`
`+=`: the exact sum, rounded. -/
def addF (a b : ℚ) : ℚ := roundF64 (a + b)

/-- The loop body of `getSummaries` with the float64 rounding kept:
`ParseFloat`'s result is the rounded literal value, and each `+=`
rounds the running total.  The main model `processRecord` idealizes
both as exact. -/
def processRecordF (sm : Summaries) (t : TransactionCSV) : Except GoErr Summaries :=
  match getMonth t.Date with
  | .error e => .error e
  | .ok month =>
    let sm1 : Summaries :=
      { sm with MonthlyTransactions :=
          fun m => if m = month then sm.MonthlyTransactions m + 1
                   else sm.MonthlyTransactions m }
    match parseFloat t.Transaction with
    | none => .error .parseFloatErr
    | some amt0 =>
      let amt := roundF64 amt0
      let sm2 : Summaries :=
        if 0 < amt then
          { sm1 with CreditCount := sm1.CreditCount + 1,
                     CreditTotal := addF sm1.CreditTotal amt }
        else sm1
      let sm3 : Summaries :=
        if amt < 0 then
          { sm2 with DebitCount := sm2.DebitCount + 1,
                     DebitTotal := addF sm2.DebitTotal amt }
        else sm2
      .ok sm3

/-- The loop of `getSummaries` in the rounding-faithful model. -/
def getSummariesAuxF : Summaries → List TransactionCSV → Except GoErr Summaries
  | sm, [] => .ok sm
  | sm, t :: ts =>
    match processRecordF sm t with
    | .error e => .error e
    | .ok sm' => getSummariesAuxF sm' ts

/-- `getSummaries` in the rounding-faithful model. -/
def getSummariesF (ts : List TransactionCSV) : Except GoErr Summaries :=
  getSummariesAuxF initialSummaries ts

/-- Float64 value of a record's amount (rounded parse result). -/
def amtFl (t : TransactionCSV) : ℚ := roundF64 (amtOf t)

/-- Credit test of the rounding-faithful loop. -/
def isCreditF (t : TransactionCSV) : Bool := decide (0 < amtFl t)

/-- Debit test of the rounding-faithful loop. -/
def isDebitF (t : TransactionCSV) : Bool := decide (amtFl t < 0)

/-- The summary after one rounding-faithful loop iteration. -/
def stepValF (sm : Summaries) (t : TransactionCSV) : Summaries :=
  { CreditCount := sm.CreditCount + (if isCreditF t then 1 else 0),
    CreditTotal := if isCreditF t then addF sm.CreditTotal (amtFl t) else sm.CreditTotal,
    DebitCount := sm.DebitCount + (if isDebitF t then 1 else 0),
    DebitTotal := if isDebitF t then addF sm.DebitTotal (amtFl t) else sm.DebitTotal,
    MonthlyTransactions := fun m =>
      if m = monthOf t then sm.MonthlyTransactions m + 1
      else sm.MonthlyTransactions m }

theorem pow2_pos (k : ℤ) : 0 < pow2 k := zpow_pos (by norm_num) k

theorem pow2_natCast (n : ℕ) : pow2 (n : ℤ) = ((2 ^ n : ℕ) : ℚ) := by
  rw [pow2, zpow_natCast]
  push_cast
  ring

theorem pow2_lt_pow2_iff {m n : ℤ} : pow2 m < pow2 n ↔ m < n :=
  zpow_lt_zpow_iff_right₀ (by norm_num)

theorem pow2_mul (m n : ℤ) : pow2 m * pow2 n = pow2 (m + n) := by
  rw [pow2, pow2, pow2, ← zpow_add₀ (by norm_num : (2 : ℚ) ≠ 0)]

theorem floorLog2Rat_eq (x : ℚ) (e : ℤ) (hx : 0 < x)
    (h1 : pow2 e ≤ x) (h2 : x < pow2 (e + 1)) : floorLog2Rat x = e := by
  have hnum : 0 < x.num := Rat.num_pos.mpr hx
  set a : ℕ := x.num.toNat with ha
  set b : ℕ := x.den with hb
  have haz : (a : ℤ) = x.num := Int.toNat_of_nonneg hnum.le
  have ha0 : a ≠ 0 := by omega
  have hb0 : b ≠ 0 := x.den_nz
  have hbpos : (0 : ℚ) < (b : ℚ) := by
    exact_mod_cast Nat.pos_of_ne_zero hb0
  have hxab : x = (a : ℚ) / (b : ℚ) := by
    have hcast : ((a : ℕ) : ℚ) = (x.num : ℚ) := by
      exact_mod_cast congrArg (fun z : ℤ => (z : ℚ)) haz
    rw [← Rat.num_div_den x, ← hcast]
  set La : ℕ := Nat.log2 a with hLa
  set Lb : ℕ := Nat.log2 b with hLb
  set e0 : ℤ := (La : ℤ) - (Lb : ℤ) with he0
  have haLQ : pow2 (La : ℤ) ≤ (a : ℚ) := by
    rw [pow2_natCast]; exact_mod_cast Nat.log2_self_le ha0
  have haUQ : (a : ℚ) < pow2 ((La : ℤ) + 1) := by
    rw [show ((La : ℤ) + 1) = ((La + 1 : ℕ) : ℤ) by push_cast; ring, pow2_natCast]
    exact_mod_cast Nat.lt_log2_self
  have hbLQ : pow2 (Lb : ℤ) ≤ (b : ℚ) := by
    rw [pow2_natCast]; exact_mod_cast Nat.log2_self_le hb0
  have hbUQ : (b : ℚ) < pow2 ((Lb : ℤ) + 1) := by
    rw [show ((Lb : ℤ) + 1) = ((Lb + 1 : ℕ) : ℤ) by push_cast; ring, pow2_natCast]
    exact_mod_cast Nat.lt_log2_self
  have hlow : pow2 (e0 - 1) < x := by
    rw [hxab, lt_div_iff₀ hbpos]
    calc pow2 (e0 - 1) * (b : ℚ)
        < pow2 (e0 - 1) * pow2 ((Lb : ℤ) + 1) :=
          mul_lt_mul_of_pos_left hbUQ (pow2_pos _)
      _ = pow2 (La : ℤ) := by rw [pow2_mul]; congr 1; omega
      _ ≤ (a : ℚ) := haLQ
  have hup : x < pow2 (e0 + 1) := by
    rw [hxab, div_lt_iff₀ hbpos]
    calc (a : ℚ) < pow2 ((La : ℤ) + 1) := haUQ
      _ = pow2 (e0 + 1) * pow2 (Lb : ℤ) := by rw [pow2_mul]; congr 1; omega
      _ ≤ pow2 (e0 + 1) * (b : ℚ) :=
          mul_le_mul_of_nonneg_left hbLQ (pow2_pos _).le
  rw [floorLog2Rat]
  by_cases hc : pow2 e0 ≤ x
  · rw [if_pos (by rw [← ha, ← hb, ← hLa, ← hLb, ← he0]; exact hc)]
    have h3 : e0 < e + 1 := pow2_lt_pow2_iff.mp (lt_of_le_of_lt hc h2)
    have h4 : e < e0 + 1 := pow2_lt_pow2_iff.mp (lt_of_le_of_lt h1 hup)
    show e0 = e
    omega
  · rw [if_neg (by rw [← ha, ← hb, ← hLa, ← hLb, ← he0]; exact hc)]
    have hxlt : x < pow2 e0 := lt_of_not_le hc
    have h3 : e < e0 := pow2_lt_pow2_iff.mp (lt_of_le_of_lt h1 hxlt)
    have h4 : e0 - 1 < e + 1 := pow2_lt_pow2_iff.mp (lt_trans hlow h2)
    show e0 - 1 = e
    omega

theorem floor_eq_of (y : ℚ) (f : ℤ) (h1 : (f : ℚ) ≤ y) (h2 : y < (f : ℚ) + 1) : ⌊y⌋ = f :=
  Int.floor_eq_iff.mpr ⟨h1, by exact_mod_cast h2⟩

theorem roundNE_lt (y : ℚ) (f : ℤ) (hf : ⌊y⌋ = f) (h : y - f < 1 / 2) :
    roundNearestEven y = f := by
  simp only [roundNearestEven, hf]
  rw [if_pos h]

theorem roundNE_gt (y : ℚ) (f : ℤ) (hf : ⌊y⌋ = f) (h : 1 / 2 < y - f) :
    roundNearestEven y = f + 1 := by
  simp only [roundNearestEven, hf]
  rw [if_neg (by linarith), if_pos h]

theorem roundNE_tie_odd (y : ℚ) (f : ℤ) (hf : ⌊y⌋ = f) (h : y - f = 1 / 2)
    (hodd : f % 2 = 1) : roundNearestEven y = f + 1 := by
  simp only [roundNearestEven, hf]
  rw [if_neg (by linarith), if_neg (by linarith), if_neg (by omega)]

theorem roundF64Pos_eq (x : ℚ) (e m : ℤ) (hx : 0 < x)
    (h1 : pow2 e ≤ x) (h2 : x < pow2 (e + 1))
    (hm : roundNearestEven (x * pow2 (52 - e)) = m) :
    roundF64Pos x = (m : ℚ) * pow2 (e - 52) := by
  simp only [roundF64Pos, floorLog2Rat_eq x e hx h1 h2, hm]

theorem roundF64_eq_pos (x r : ℚ) (e m : ℤ) (hx : 0 < x)
    (h1 : pow2 e ≤ x) (h2 : x < pow2 (e + 1))
    (hm : roundNearestEven (x * pow2 (52 - e)) = m)
    (hr : (m : ℚ) * pow2 (e - 52) = r) :
    roundF64 x = r := by
  rw [roundF64, if_neg (ne_of_gt hx), if_neg (not_lt.mpr hx.le),
    roundF64Pos_eq x e m hx h1 h2 hm, hr]

theorem processRecordF_ok_eq (sm : Summaries) (t : TransactionCSV) (i : ℤ) (a : ℚ)
    (hm : atoi (beforeSlash t.Date) = some i) (ha : parseFloat t.Transaction = some a) :
    processRecordF sm t = .ok (stepValF sm t) := by
  have hmo : monthOf t = months i := by simp [monthOf, hm]
  have hao : amtFl t = roundF64 a := by simp [amtFl, amtOf, ha]
  simp only [processRecordF, getMonth, hm, ha]
  refine congrArg Except.ok (Summaries.ext_fields ?_ ?_ ?_ ?_ ?_) <;>
    simp [stepValF, isCreditF, isDebitF, hao, hmo] <;> split_ifs <;> simp_all

theorem processRecordF_ok_valid {sm sm' : Summaries} {t : TransactionCSV}
    (h : processRecordF sm t = .ok sm') : validRec t := by
  unfold processRecordF at h
  constructor
  · rcases hg : getMonth t.Date with e | mo
    · rw [hg] at h; cases h
    · unfold getMonth at hg
      rcases hA : atoi (beforeSlash t.Date) with _ | i
      · rw [hA] at hg; cases hg
      · simp [hA]
  · rcases hg : getMonth t.Date with e | mo
    · rw [hg] at h; cases h
    · rw [hg] at h
      rcases hP : parseFloat t.Transaction with _ | a
      · simp only [hP] at h; cases h
      · simp [hP]

theorem getSummariesAuxF_ok (ts : List TransactionCSV) :
    ∀ sm : Summaries, (∀ t ∈ ts, validRec t) →
      ∃ s, getSummariesAuxF sm ts = .ok s ∧
        s.CreditCount = sm.CreditCount + ts.countP isCreditF ∧
        s.DebitCount = sm.DebitCount + ts.countP isDebitF ∧
        ∀ m, s.MonthlyTransactions m =
          sm.MonthlyTransactions m + ts.countP (fun t => monthOf t == m) := by
  induction ts with
  | nil => intro sm _; exact ⟨sm, rfl, by simp, by simp, by simp⟩
  | cons t ts ih =>
    intro sm h
    obtain ⟨hm, ha⟩ := h t (List.mem_cons_self t ts)
    obtain ⟨i, hi⟩ := Option.isSome_iff_exists.mp hm
    obtain ⟨a, hA⟩ := Option.isSome_iff_exists.mp ha
    obtain ⟨s, hs, hc, hd, hmn⟩ :=
      ih (stepValF sm t) (fun u hu => h u (List.mem_cons_of_mem t hu))
    refine ⟨s, ?_, ?_, ?_, ?_⟩
    · simp only [getSummariesAuxF, processRecordF_ok_eq sm t i a hi hA]
      exact hs
    · rw [hc]
      cases hb : isCreditF t <;> simp [stepValF, hb, List.countP_cons] <;> omega
    · rw [hd]
      cases hb : isDebitF t <;> simp [stepValF, hb, List.countP_cons] <;> omega
    · intro m
      rw [hmn m]
      by_cases hmo : m = monthOf t
      · subst hmo
        simp only [stepValF, List.countP_cons, beq_self_eq_true, if_pos, if_true]
        omega
      · have hbq : (monthOf t == m) = false :=
          beq_eq_false_iff_ne.mpr (fun hc2 => hmo hc2.symm)
        simp only [stepValF, List.countP_cons, hbq, if_neg hmo, Bool.false_eq_true,
          if_false]
        omega

theorem getSummariesAuxF_ok_valid {ts : List TransactionCSV} :
    ∀ {sm s : Summaries}, getSummariesAuxF sm ts = .ok s → ∀ t ∈ ts, validRec t := by
  induction ts with
  | nil => intro sm s _ t ht; cases ht
  | cons u ts ih =>
    intro sm s h t ht
    rw [getSummariesAuxF] at h
    rcases hp : processRecordF sm u with e | sm'
    · rw [hp] at h; cases h
    · rw [hp] at h
      rcases List.mem_cons.mp ht with rfl | ht'
      · exact processRecordF_ok_valid hp
      · exact ih h t ht'

/-! Concrete rounding facts for the order-sensitivity batch
(0.1, 0.2, 0.3): the parsed float64 values and the rounded running
sums, in both summation orders. -/

def fr1 : TransactionCSV := { ID := "0", Date := "7/15", Transaction := "0.1" }

def fr2 : TransactionCSV := { ID := "1", Date := "7/15", Transaction := "0.2" }

def fr3 : TransactionCSV := { ID := "2", Date := "7/15", Transaction := "0.3" }

/-- The three-credit batch 0.1, 0.2, 0.3 (all dated 7/15). -/
def floatBatch : List TransactionCSV := [fr1, fr2, fr3]

theorem parseFloat_01 : parseFloat "0.1" = some (1 / 10) := by
  have h : parseFloat "0.1" = some (((0 : ℕ) : ℚ) + ((1 : ℕ) : ℚ) / 10 ^ 1) := rfl
  rw [h]; norm_num

theorem parseFloat_02 : parseFloat "0.2" = some (1 / 5) := by
  have h : parseFloat "0.2" = some (((0 : ℕ) : ℚ) + ((2 : ℕ) : ℚ) / 10 ^ 1) := rfl
  rw [h]; norm_num

theorem parseFloat_03 : parseFloat "0.3" = some (3 / 10) := by
  have h : parseFloat "0.3" = some (((0 : ℕ) : ℚ) + ((3 : ℕ) : ℚ) / 10 ^ 1) := rfl
  rw [h]; norm_num

theorem roundF64_tenth : roundF64 (1 / 10) = 3602879701896397 / 2 ^ 55 := by
  refine roundF64_eq_pos (1 / 10) _ (-4) 7205759403792794 (by norm_num)
    (by norm_num [pow2]) (by norm_num [pow2]) ?_ (by norm_num [pow2])
  have hy : (1 / 10 : ℚ) * pow2 (52 - (-4 : ℤ)) = 72057594037927936 / 10 := by
    norm_num [pow2]
  rw [hy]
  exact roundNE_gt _ 7205759403792793
    (floor_eq_of _ _ (by norm_num) (by norm_num)) (by norm_num)

theorem roundF64_fifth : roundF64 (1 / 5) = 3602879701896397 / 2 ^ 54 := by
  refine roundF64_eq_pos (1 / 5) _ (-3) 7205759403792794 (by norm_num)
    (by norm_num [pow2]) (by norm_num [pow2]) ?_ (by norm_num [pow2])
  have hy : (1 / 5 : ℚ) * pow2 (52 - (-3 : ℤ)) = 36028797018963968 / 5 := by
    norm_num [pow2]
  rw [hy]
  exact roundNE_gt _ 7205759403792793
    (floor_eq_of _ _ (by norm_num) (by norm_num)) (by norm_num)

theorem roundF64_threeTenths : roundF64 (3 / 10) = 5404319552844595 / 2 ^ 54 := by
  refine roundF64_eq_pos (3 / 10) _ (-2) 5404319552844595 (by norm_num)
    (by norm_num [pow2]) (by norm_num [pow2]) ?_ (by norm_num [pow2])
  have hy : (3 / 10 : ℚ) * pow2 (52 - (-2 : ℤ)) = 54043195528445952 / 10 := by
    norm_num [pow2]
  rw [hy]
  exact roundNE_lt _ 5404319552844595
    (floor_eq_of _ _ (by norm_num) (by norm_num)) (by norm_num)

theorem roundF64_Aval :
    roundF64 (3602879701896397 / 2 ^ 55) = 3602879701896397 / 2 ^ 55 := by
  refine roundF64_eq_pos _ _ (-4) 7205759403792794 (by norm_num)
    (by norm_num [pow2]) (by norm_num [pow2]) ?_ (by norm_num [pow2])
  have hy : (3602879701896397 / 2 ^ 55 : ℚ) * pow2 (52 - (-4 : ℤ)) =
      7205759403792794 := by
    norm_num [pow2]
  rw [hy]
  exact roundNE_lt _ 7205759403792794
    (floor_eq_of _ _ (by norm_num) (by norm_num)) (by norm_num)

theorem roundF64_Cval :
    roundF64 (5404319552844595 / 2 ^ 54) = 5404319552844595 / 2 ^ 54 := by
  refine roundF64_eq_pos _ _ (-2) 5404319552844595 (by norm_num)
    (by norm_num [pow2]) (by norm_num [pow2]) ?_ (by norm_num [pow2])
  have hy : (5404319552844595 / 2 ^ 54 : ℚ) * pow2 (52 - (-2 : ℤ)) =
      5404319552844595 := by
    norm_num [pow2]
  rw [hy]
  exact roundNE_lt _ 5404319552844595
    (floor_eq_of _ _ (by norm_num) (by norm_num)) (by norm_num)

theorem roundF64_AB :
    roundF64 (10808639105689191 / 2 ^ 55) = 5404319552844596 / 2 ^ 54 := by
  refine roundF64_eq_pos _ _ (-2) 5404319552844596 (by norm_num)
    (by norm_num [pow2]) (by norm_num [pow2]) ?_ (by norm_num [pow2])
  have hy : (10808639105689191 / 2 ^ 55 : ℚ) * pow2 (52 - (-2 : ℤ)) =
      10808639105689191 / 2 := by
    norm_num [pow2]
  rw [hy]
  exact roundNE_tie_odd _ 5404319552844595
    (floor_eq_of _ _ (by norm_num) (by norm_num)) (by norm_num) (by norm_num)

theorem roundF64_ABC :
    roundF64 (10808639105689191 / 2 ^ 54) = 5404319552844596 / 2 ^ 53 := by
  refine roundF64_eq_pos _ _ (-1) 5404319552844596 (by norm_num)
    (by norm_num [pow2]) (by norm_num [pow2]) ?_ (by norm_num [pow2])
  have hy : (10808639105689191 / 2 ^ 54 : ℚ) * pow2 (52 - (-1 : ℤ)) =
      10808639105689191 / 2 := by
    norm_num [pow2]
  rw [hy]
  exact roundNE_tie_odd _ 5404319552844595
    (floor_eq_of _ _ (by norm_num) (by norm_num)) (by norm_num) (by norm_num)

theorem roundF64_half : roundF64 (1 / 2) = 1 / 2 := by
  refine roundF64_eq_pos _ _ (-1) 4503599627370496 (by norm_num)
    (by norm_num [pow2]) (by norm_num [pow2]) ?_ (by norm_num [pow2])
  have hy : (1 / 2 : ℚ) * pow2 (52 - (-1 : ℤ)) = 4503599627370496 := by
    norm_num [pow2]
  rw [hy]
  exact roundNE_lt _ 4503599627370496
    (floor_eq_of _ _ (by norm_num) (by norm_num)) (by norm_num)

theorem roundF64_CBA :
    roundF64 (21617278211378381 / 2 ^ 55) = 5404319552844595 / 2 ^ 53 := by
  refine roundF64_eq_pos _ _ (-1) 5404319552844595 (by norm_num)
    (by norm_num [pow2]) (by norm_num [pow2]) ?_ (by norm_num [pow2])
  have hy : (21617278211378381 / 2 ^ 55 : ℚ) * pow2 (52 - (-1 : ℤ)) =
      21617278211378381 / 4 := by
    norm_num [pow2]
  rw [hy]
  exact roundNE_lt _ 5404319552844595
    (floor_eq_of _ _ (by norm_num) (by norm_num)) (by norm_num)

theorem amtFl_fr1 : amtFl fr1 = 3602879701896397 / 2 ^ 55 := by
  have h : amtOf fr1 = 1 / 10 := by simp [amtOf, fr1, parseFloat_01]
  rw [amtFl, h]
  exact roundF64_tenth

theorem amtFl_fr2 : amtFl fr2 = 3602879701896397 / 2 ^ 54 := by
  have h : amtOf fr2 = 1 / 5 := by simp [amtOf, fr2, parseFloat_02]
  rw [amtFl, h]
  exact roundF64_fifth

theorem amtFl_fr3 : amtFl fr3 = 5404319552844595 / 2 ^ 54 := by
  have h : amtOf fr3 = 3 / 10 := by simp [amtOf, fr3, parseFloat_03]
  rw [amtFl, h]
  exact roundF64_threeTenths

theorem isCreditF_fr1 : isCreditF fr1 = true := by
  unfold isCreditF; rw [amtFl_fr1]; simp only [decide_eq_true_eq]; norm_num

theorem isCreditF_fr2 : isCreditF fr2 = true := by
  unfold isCreditF; rw [amtFl_fr2]; simp only [decide_eq_true_eq]; norm_num

theorem isCreditF_fr3 : isCreditF fr3 = true := by
  unfold isCreditF; rw [amtFl_fr3]; simp only [decide_eq_true_eq]; norm_num

theorem addF_fwd1 : addF 0 (3602879701896397 / 2 ^ 55) = 3602879701896397 / 2 ^ 55 := by
  have h : (0 : ℚ) + 3602879701896397 / 2 ^ 55 = 3602879701896397 / 2 ^ 55 := by norm_num
  rw [addF, h]
  exact roundF64_Aval

theorem addF_fwd2 :
    addF (3602879701896397 / 2 ^ 55) (3602879701896397 / 2 ^ 54) =
      5404319552844596 / 2 ^ 54 := by
  have h : (3602879701896397 / 2 ^ 55 : ℚ) + 3602879701896397 / 2 ^ 54 =
      10808639105689191 / 2 ^ 55 := by norm_num
  rw [addF, h]
  exact roundF64_AB

theorem addF_fwd3 :
    addF (5404319552844596 / 2 ^ 54) (5404319552844595 / 2 ^ 54) =
      5404319552844596 / 2 ^ 53 := by
  have h : (5404319552844596 / 2 ^ 54 : ℚ) + 5404319552844595 / 2 ^ 54 =
      10808639105689191 / 2 ^ 54 := by norm_num
  rw [addF, h]
  exact roundF64_ABC

theorem addF_rev1 : addF 0 (5404319552844595 / 2 ^ 54) = 5404319552844595 / 2 ^ 54 := by
  have h : (0 : ℚ) + 5404319552844595 / 2 ^ 54 = 5404319552844595 / 2 ^ 54 := by norm_num
  rw [addF, h]
  exact roundF64_Cval

theorem addF_rev2 :
    addF (5404319552844595 / 2 ^ 54) (3602879701896397 / 2 ^ 54) = 1 / 2 := by
  have h : (5404319552844595 / 2 ^ 54 : ℚ) + 3602879701896397 / 2 ^ 54 = 1 / 2 := by
    norm_num
  rw [addF, h]
  exact roundF64_half

theorem addF_rev3 :
    addF (1 / 2) (3602879701896397 / 2 ^ 55) = 5404319552844595 / 2 ^ 53 := by
  have h : (1 / 2 : ℚ) + 3602879701896397 / 2 ^ 55 = 21617278211378381 / 2 ^ 55 := by
    norm_num
  rw [addF, h]
  exact roundF64_CBA

theorem getSummariesF_fwd :
    (getSummariesF floatBatch).map (fun s => s.CreditTotal) =
      .ok (5404319552844596 / 2 ^ 53) := by
  have e1 := processRecordF_ok_eq initialSummaries fr1 7 (1 / 10) (by decide)
    (by rw [show fr1.Transaction = "0.1" from rfl]; exact parseFloat_01)
  have e2 := processRecordF_ok_eq (stepValF initialSummaries fr1) fr2 7 (1 / 5) (by decide)
    (by rw [show fr2.Transaction = "0.2" from rfl]; exact parseFloat_02)
  have e3 := processRecordF_ok_eq (stepValF (stepValF initialSummaries fr1) fr2) fr3 7
    (3 / 10) (by decide)
    (by rw [show fr3.Transaction = "0.3" from rfl]; exact parseFloat_03)
  have hfold : getSummariesF floatBatch =
      .ok (stepValF (stepValF (stepValF initialSummaries fr1) fr2) fr3) := by
    simp only [getSummariesF, floatBatch, getSummariesAuxF, e1, e2, e3]
  rw [hfold]
  simp only [Except.map]
  refine congrArg Except.ok ?_
  have hct : (stepValF (stepValF (stepValF initialSummaries fr1) fr2) fr3).CreditTotal =
      addF (addF (addF 0 (amtFl fr1)) (amtFl fr2)) (amtFl fr3) := by
    simp [stepValF, isCreditF_fr1, isCreditF_fr2, isCreditF_fr3, initialSummaries]
  rw [hct, amtFl_fr1, amtFl_fr2, amtFl_fr3, addF_fwd1, addF_fwd2, addF_fwd3]

theorem getSummariesF_rev :
    (getSummariesF floatBatch.reverse).map (fun s => s.CreditTotal) =
      .ok (5404319552844595 / 2 ^ 53) := by
  have hrev : floatBatch.reverse = [fr3, fr2, fr1] := by simp [floatBatch]
  have e1 := processRecordF_ok_eq initialSummaries fr3 7 (3 / 10) (by decide)
    (by rw [show fr3.Transaction = "0.3" from rfl]; exact parseFloat_03)
  have e2 := processRecordF_ok_eq (stepValF initialSummaries fr3) fr2 7 (1 / 5) (by decide)
    (by rw [show fr2.Transaction = "0.2" from rfl]; exact parseFloat_02)
  have e3 := processRecordF_ok_eq (stepValF (stepValF initialSummaries fr3) fr2) fr1 7
    (1 / 10) (by decide)
    (by rw [show fr1.Transaction = "0.1" from rfl]; exact parseFloat_01)
  have hfold : getSummariesF floatBatch.reverse =
      .ok (stepValF (stepValF (stepValF initialSummaries fr3) fr2) fr1) := by
    rw [hrev]
    simp only [getSummariesF, getSummariesAuxF, e1, e2, e3]
  rw [hfold]
  simp only [Except.map]
  refine congrArg Except.ok ?_
  have hct : (stepValF (stepValF (stepValF initialSummaries fr3) fr2) fr1).CreditTotal =
      addF (addF (addF 0 (amtFl fr3)) (amtFl fr2)) (amtFl fr1) := by
    simp [stepValF, isCreditF_fr1, isCreditF_fr2, isCreditF_fr3, initialSummaries]
  rw [hct, amtFl_fr1, amtFl_fr2, amtFl_fr3, addF_rev1, addF_rev2, addF_rev3]

/-- C9 counterexample: the all-credit batch (0.1, 0.2, 0.3) aggregates
successfully, and so does its reversal — a permutation of it — but the
two runs produce different Summaries: with float64 `+=` the running
credit total is 0.6000000000000001 in input order and 0.6 reversed, so
permuting a successfully aggregated batch does NOT always yield an
equal Summary. -/
theorem getSummariesF_order_sensitive :
    floatBatch.Perm floatBatch.reverse ∧
    (getSummariesF floatBatch).map (fun s => s.CreditTotal) =
      .ok (5404319552844596 / 2 ^ 53) ∧
    (getSummariesF floatBatch.reverse).map (fun s => s.CreditTotal) =
      .ok (5404319552844595 / 2 ^ 53) ∧
    (5404319552844596 / 2 ^ 53 : ℚ) ≠ 5404319552844595 / 2 ^ 53 :=
  ⟨(List.reverse_perm floatBatch).symm, getSummariesF_fwd, getSummariesF_rev,
    by norm_num⟩

/-- C9 amended: aggregation is order-independent in its counts and
monthly tallies — permuting a successfully aggregated batch yields a
successful Summary with the same creditCount, debitCount and monthly
counts — but the float64 running totals are summation-order-sensitive
and may differ across permutations. -/
theorem getSummariesF_perm_counts (ts ts' : List TransactionCSV) (s : Summaries)
    (hp : ts.Perm ts') (h : getSummariesF ts = .ok s) :
    ∃ s', getSummariesF ts' = .ok s' ∧
      s'.CreditCount = s.CreditCount ∧
      s'.DebitCount = s.DebitCount ∧
      ∀ m, s'.MonthlyTransactions m = s.MonthlyTransactions m := by
  have hv : ∀ t ∈ ts, validRec t := getSummariesAuxF_ok_valid h
  have hv' : ∀ t ∈ ts', validRec t := fun t ht => hv t (hp.mem_iff.mpr ht)
  obtain ⟨s1, hs1, hc1, hd1, hm1⟩ := getSummariesAuxF_ok ts initialSummaries hv
  obtain ⟨s2, hs2, hc2, hd2, hm2⟩ := getSummariesAuxF_ok ts' initialSummaries hv'
  rw [getSummariesF] at h
  rw [h] at hs1
  obtain rfl : s = s1 := Except.ok.inj hs1
  refine ⟨s2, hs2, ?_, ?_, ?_⟩
  · rw [hc2, hc1, hp.countP_eq isCreditF]
  · rw [hd2, hd1, hp.countP_eq isDebitF]
  · intro m
    rw [hm2 m, hm1 m, hp.countP_eq (fun t => monthOf t == m)]

/-- C9 amended witness: the (0.1, 0.2, 0.3) batch and its reversal
share all counts and monthly tallies (even though their credit totals
differ, per the counterexample). -/
theorem getSummariesF_perm_counts_witness :
    ∃ s, getSummariesF floatBatch = .ok s ∧
      ∃ s', getSummariesF floatBatch.reverse = .ok s' ∧
        s'.CreditCount = s.CreditCount ∧
        s'.DebitCount = s.DebitCount ∧
        ∀ m, s'.MonthlyTransactions m = s.MonthlyTransactions m := by
  obtain ⟨s, hs, -, -, -⟩ :=
    getSummariesAuxF_ok floatBatch initialSummaries (by decide)
  exact ⟨s, hs,
    getSummariesF_perm_counts floatBatch floatBatch.reverse s
      (List.reverse_perm floatBatch).symm hs⟩

theorem getSummariesAux_id_irrelevant (ts : List TransactionCSV) :
    ∀ (ts' : List TransactionCSV) (sm : Summaries),
      ts.map (fun t => (t.Date, t.Transaction)) =
        ts'.map (fun t => (t.Date, t.Transaction)) →
      getSummariesAux sm ts = getSummariesAux sm ts' := by
  induction ts with
  | nil =>
    intro ts' sm h
    cases ts' with
    | nil => rfl
    | cons u ts'' => simp at h
  | cons t ts ih =>
    intro ts' sm h
    cases ts' with
    | nil => simp at h
    | cons u ts'' =>
      simp only [List.map_cons, List.cons.injEq] at h
      have hd : t.Date = u.Date := congrArg Prod.fst h.1
      have htr : t.Transaction = u.Transaction := congrArg Prod.snd h.1
      have hpr : processRecord sm t = processRecord sm u := by
        unfold processRecord
        rw [hd, htr]
      rw [getSummariesAux, getSummariesAux, hpr]
      cases hq : processRecord sm u with
      | error e => rfl
      | ok sm' => exact ih ts'' sm' h.2

/-- C10: aggregation never reads the id field — two batches agreeing
on every record's date and amount fields produce identical results
(the same Summary, or the same error). -/
theorem getSummaries_id_independent (ts ts' : List TransactionCSV)
    (h : ts.map (fun t => (t.Date, t.Transaction)) =
      ts'.map (fun t => (t.Date, t.Transaction))) :
    getSummaries ts = getSummaries ts' :=
  getSummariesAux_id_irrelevant ts ts' initialSummaries h

/-- C10 witness: two one-record batches differing only in the id. -/
theorem getSummaries_id_independent_witness :
    getSummaries [{ ID := "a", Date := "7/15", Transaction := "+60.50" }] =
      getSummaries [{ ID := "b", Date := "7/15", Transaction := "+60.50" }] :=
  getSummaries_id_independent
    [{ ID := "a", Date := "7/15", Transaction := "+60.50" }]
    [{ ID := "b", Date := "7/15", Transaction := "+60.50" }] rfl

